import Mathlib

/-!
Verification of the `iced_table` table widget core: the column width
distribution algorithm (`distribute_fill_widths` in `src/lib.rs`) and the
divider drag-resize state machine (`Divider` in `src/divider.rs`).

Real-number quantities (`f32` in the Rust source) are modelled as exact
rationals (`ℚ`); the `proportion` field of a fill column is a `u32`,
modelled as `ℕ`. All definitions are translated directly from the source.
-/

namespace IcedTable

/-- `Width` (src/lib.rs): how the width of a column is calculated.
`Fixed(f32)`, `Resizable { initial, offset }`, `Fill { proportion : u32, minimum }`. -/
inductive Width
  | Fixed (width : ℚ)
  | Resizable (initial : ℚ) (offset : ℚ)
  | Fill (proportion : ℕ) (minimum : ℚ)
deriving DecidableEq, Repr

/-- `CalculatedWidth` (src/lib.rs): the resolved width of one column,
with a flag recording whether the column is resizable. -/
structure CalculatedWidth where
  current : ℚ
  is_resizable : Bool
deriving DecidableEq, Repr

/-- The body of the first pass of `distribute_fill_widths`
(`columns.iter().for_each(...)` in src/lib.rs, lines 506-512):
accumulates the total fill proportion and the remaining width. -/
def accumulate_step (acc : ℕ × ℚ) (column : Width) : ℕ × ℚ :=
  match column with
  | Width.Fixed current => (acc.1, acc.2 - current)
  | Width.Resizable initial offset => (acc.1, acc.2 - (initial + offset))
  | Width.Fill proportion _ => (acc.1 + proportion, acc.2)

/-- The body of the second pass of `distribute_fill_widths`
(src/lib.rs, lines 521-540): resolves one column given the part width. -/
def calculate_width (part_width : ℚ) (column : Width) : CalculatedWidth :=
  match column with
  | Width.Fixed current => CalculatedWidth.mk current false
  | Width.Resizable initial offset => CalculatedWidth.mk (initial + offset) true
  | Width.Fill proportion minimum =>
      CalculatedWidth.mk (max ((proportion : ℚ) * part_width) minimum) false

/-- `distribute_fill_widths` (src/lib.rs, lines 493-546).
First pass accumulates `fill_proportion` (starting at `0`) and
`remaining_width` (starting at `min_width`); `part_width` is
`remaining_width / fill_proportion` when `fill_proportion != 0`, else `0`;
second pass resolves each column; `unused_width` is
`Some(remaining_width)` iff `remaining_width > 0 && fill_proportion == 0`. -/
def distribute_fill_widths (columns : List Width) (min_width : ℚ) :
    List CalculatedWidth × Option ℚ :=
  let acc := columns.foldl accumulate_step (0, min_width)
  let fill_proportion := acc.1
  let remaining_width := acc.2
  let part_width : ℚ :=
    if fill_proportion ≠ 0 then remaining_width / (fill_proportion : ℚ) else 0
  let calculated_widths := columns.map (calculate_width part_width)
  let unused_width : Option ℚ :=
    if remaining_width > 0 ∧ fill_proportion = 0 then some remaining_width else none
  (calculated_widths, unused_width)

/-! Closed-form characterizations of the first pass, used to state the
claims: the sum of fixed widths, the sum of resizable current widths
(`initial + offset`), and the total fill proportion. -/

/-- Sum of the widths of the `Fixed` columns. -/
def sumFixed : List Width → ℚ
  | [] => 0
  | Width.Fixed w :: rest => w + sumFixed rest
  | Width.Resizable _ _ :: rest => sumFixed rest
  | Width.Fill _ _ :: rest => sumFixed rest

/-- Sum of `initial + offset` over the `Resizable` columns. -/
def sumResizable : List Width → ℚ
  | [] => 0
  | Width.Fixed _ :: rest => sumResizable rest
  | Width.Resizable i o :: rest => (i + o) + sumResizable rest
  | Width.Fill _ _ :: rest => sumResizable rest

/-- Sum of the proportions of the `Fill` columns. -/
def totalFillProportion : List Width → ℕ
  | [] => 0
  | Width.Fixed _ :: rest => totalFillProportion rest
  | Width.Resizable _ _ :: rest => totalFillProportion rest
  | Width.Fill p _ :: rest => p + totalFillProportion rest

/-- Sum of the resolved `current` widths of a solver output. -/
def resolvedSum (widths : List CalculatedWidth) : ℚ :=
  (widths.map CalculatedWidth.current).sum

/-- Whether a width spec is a `Fill` spec. -/
def isFill : Width → Bool
  | Width.Fill _ _ => true
  | _ => false

/-- The single accumulating pass of `distribute_fill_widths` computes the
total fill proportion and `min_width` minus the fixed and resizable sums. -/
theorem foldl_accumulate_step (columns : List Width) (fp₀ : ℕ) (r₀ : ℚ) :
    columns.foldl accumulate_step (fp₀, r₀) =
      (fp₀ + totalFillProportion columns,
        r₀ - sumFixed columns - sumResizable columns) := by
  induction columns generalizing fp₀ r₀ with
  | nil => simp [sumFixed, sumResizable, totalFillProportion]
  | cons c rest ih =>
      cases c with
      | Fixed w =>
          simp only [List.foldl_cons, accumulate_step, ih, sumFixed, sumResizable,
            totalFillProportion, Prod.mk.injEq]
          exact ⟨by ring, by ring⟩
      | Resizable i o =>
          simp only [List.foldl_cons, accumulate_step, ih, sumFixed, sumResizable,
            totalFillProportion, Prod.mk.injEq]
          exact ⟨by ring, by ring⟩
      | Fill p m =>
          simp only [List.foldl_cons, accumulate_step, ih, sumFixed, sumResizable,
            totalFillProportion, Prod.mk.injEq]
          exact ⟨by ring, by ring⟩

/-! ### Divider model (src/divider.rs)

Points and rectangles are `iced_core` geometry; `Rectangle::contains`
is half-open on the far edges. The divider widget's own fields that the
claims need are its strip width (`self.width`); its callbacks are
modelled by emitting raw messages (`drag delta` for `on_drag(delta)`,
`release` for `on_release`). -/

/-- `iced_core::Point`, restricted to the coordinates. -/
structure Point where
  x : ℚ
  y : ℚ
deriving DecidableEq, Repr

/-- `iced_core::Rectangle`. -/
structure Rectangle where
  x : ℚ
  y : ℚ
  width : ℚ
  height : ℚ
deriving DecidableEq, Repr

/-- `iced_core::Rectangle::contains`: `self.x <= point.x && point.x <
self.x + self.width && self.y <= point.y && point.y < self.y + self.height`. -/
def Rectangle.contains (r : Rectangle) (p : Point) : Bool :=
  decide (r.x ≤ p.x) && decide (p.x < r.x + r.width) &&
    decide (r.y ≤ p.y) && decide (p.y < r.y + r.height)

/-- `State` (src/divider.rs): the per-divider ephemeral state. -/
structure State where
  drag_origin : Option Point
  is_divider_hovered : Bool
deriving DecidableEq, Repr

/-- The messages a divider can publish to the shell: `on_drag(delta)`
while resizing and `on_release` when the drag ends. -/
inductive RawMessage
  | drag (delta : ℚ)
  | release
deriving DecidableEq, Repr

/-- The mouse events the divider's `on_event` distinguishes
(src/divider.rs lines 128-149); every other event takes the `_ => {}`
arm and is represented by `other`. -/
inductive Event
  | buttonPressedLeft
  | buttonReleasedLeft
  | cursorMoved (position : Point)
  | other
deriving DecidableEq, Repr

/-- `Divider::divider_bounds` (src/divider.rs lines 47-53): the strip of
width `width` at the right edge of the content bounds. -/
def divider_bounds (width : ℚ) (bounds : Rectangle) : Rectangle :=
  { bounds with x := bounds.x + bounds.width - width, width := width }

/-- `Divider::is_divider_hovered` (src/divider.rs lines 55-62): the
divider bounds grown by 5 units on each horizontal side
(`bounds.x -= 5.0; bounds.width += 10.0`) contain the cursor. -/
def is_divider_hovered (width : ℚ) (bounds : Rectangle) (cursor_position : Point) : Bool :=
  let b := divider_bounds width bounds
  Rectangle.contains { b with x := b.x - 5, width := b.width + 10 } cursor_position

/-- `Divider::is_content_hovered` (src/divider.rs lines 64-68):
`bounds.x += (bounds.width - 5.0).clamp(0.0, 5.0)` (the width is left
unchanged), then containment.  Rust `v.clamp(lo, hi)` is
`min (max v lo) hi`. -/
def is_content_hovered (bounds : Rectangle) (cursor_position : Point) : Bool :=
  Rectangle.contains
    { bounds with x := bounds.x + min (max (bounds.width - 5) 0) 5 } cursor_position

/-- Result of one `Divider::on_event` call: the updated state, the
messages published to the shell, and whether the event was captured
(`true`) or fell through to the wrapped content (`false`). -/
structure EventResult where
  state : State
  published : List RawMessage
  captured : Bool
deriving DecidableEq, Repr

/-- `Divider::on_event` (src/divider.rs lines 114-161).  The hovered
flag is recomputed from the cursor first; a left press inside the hit
rectangle stores the cursor as drag origin and captures; a left release
takes the origin and, if one was set, publishes `on_release` and
captures; a cursor move while an origin is set publishes
`on_drag((position - origin).x)` and captures; every other case falls
through to the wrapped content. -/
def on_event (width : ℚ) (bounds : Rectangle) (state : State) (cursor_position : Point)
    (event : Event) : EventResult :=
  let state1 : State :=
    { state with is_divider_hovered := is_divider_hovered width bounds cursor_position }
  match event with
  | Event.buttonPressedLeft =>
      if state1.is_divider_hovered then
        { state := { state1 with drag_origin := some cursor_position },
          published := [], captured := true }
      else
        { state := state1, published := [], captured := false }
  | Event.buttonReleasedLeft =>
      match state1.drag_origin with
      | some _ =>
          { state := { state1 with drag_origin := none },
            published := [RawMessage.release], captured := true }
      | none => { state := state1, published := [], captured := false }
  | Event.cursorMoved position =>
      match state1.drag_origin with
      | some origin =>
          { state := state1,
            published := [RawMessage.drag (position.x - origin.x)], captured := true }
      | none => { state := state1, published := [], captured := false }
  | Event.other => { state := state1, published := [], captured := false }

/-- The condition under which `Divider::draw` (src/divider.rs lines
208-211) renders the divider strip: content hovered, or the stored
hovered flag, or a drag in progress. -/
def draw_shows_highlight (bounds : Rectangle) (state : State) (cursor_position : Point) :
    Bool :=
  is_content_hovered bounds cursor_position || state.is_divider_hovered ||
    state.drag_origin.isSome

/-- The `snap` closure inside `Divider::draw` (src/divider.rs lines
217-226): floor the x position, keep y, force the width to the divider
width, keep the rest of the bounds. -/
def snap (width : ℚ) (bounds : Rectangle) : Rectangle :=
  { bounds with x := (⌊bounds.x⌋ : ℚ), width := width }

/-- The rectangle of the quad filled by `Divider::draw`
(src/divider.rs line 230): `snap(self.divider_bounds(layout.bounds()))`. -/
def drawn_divider_quad (width : ℚ) (bounds : Rectangle) : Rectangle :=
  snap width (divider_bounds width bounds)

/-- The message built by the body scrollable's `on_scroll` closure
(src/lib.rs lines 298-301): the absolute offset with `y` replaced by
`0.0`, passed to `on_sync`. -/
structure AbsoluteOffset where
  x : ℚ
  y : ℚ
deriving DecidableEq, Repr

/-- The `on_scroll` closure of the body scrollable (src/lib.rs lines
298-301): `(on_sync)(scrollable::AbsoluteOffset { y: 0.0, ..offset })`. -/
def on_scroll_message {Message : Type} (on_sync : AbsoluteOffset → Message)
    (offset : AbsoluteOffset) : Message :=
  on_sync { offset with y := 0 }

/-! ### Helper lemmas for the width solver -/

/-- A list of specs with no `Fill` column has total fill proportion `0`. -/
theorem totalFillProportion_eq_zero (columns : List Width)
    (h : ∀ c ∈ columns, isFill c = false) : totalFillProportion columns = 0 := by
  induction columns with
  | nil => rfl
  | cons c rest ih =>
      cases c with
      | Fixed w => exact ih fun d hd => h d (List.mem_cons_of_mem _ hd)
      | Resizable i o => exact ih fun d hd => h d (List.mem_cons_of_mem _ hd)
      | Fill p m => simpa [isFill] using h _ (List.mem_cons_self _ _)

/-- With no `Fill` column, the resolved widths sum to the fixed sum plus
the resizable sum, whatever the part width is. -/
theorem resolvedSum_map_calculate_width (part_width : ℚ) (columns : List Width)
    (h : ∀ c ∈ columns, isFill c = false) :
    resolvedSum (columns.map (calculate_width part_width)) =
      sumFixed columns + sumResizable columns := by
  induction columns with
  | nil => simp [resolvedSum, sumFixed, sumResizable]
  | cons c rest ih =>
      have hrest := ih fun d hd => h d (List.mem_cons_of_mem _ hd)
      cases c with
      | Fixed w =>
          simp only [List.map_cons, resolvedSum, List.sum_cons, calculate_width,
            sumFixed, sumResizable] at hrest ⊢
          rw [hrest]; ring
      | Resizable i o =>
          simp only [List.map_cons, resolvedSum, List.sum_cons, calculate_width,
            sumFixed, sumResizable] at hrest ⊢
          rw [hrest]; ring
      | Fill p m => simpa [isFill] using h _ (List.mem_cons_self _ _)

/-- The first component of the solver output is the map of
`calculate_width` at the part width computed from the closed-form sums. -/
theorem distribute_fill_widths_fst (columns : List Width) (min_width : ℚ) :
    (distribute_fill_widths columns min_width).1 =
      columns.map (calculate_width
        (if totalFillProportion columns ≠ 0 then
          (min_width - sumFixed columns - sumResizable columns) /
            (totalFillProportion columns : ℚ)
        else 0)) := by
  simp [distribute_fill_widths, foldl_accumulate_step]

/-- The second component of the solver output, in closed form. -/
theorem distribute_fill_widths_snd (columns : List Width) (min_width : ℚ) :
    (distribute_fill_widths columns min_width).2 =
      if 0 < min_width - sumFixed columns - sumResizable columns ∧
          totalFillProportion columns = 0 then
        some (min_width - sumFixed columns - sumResizable columns)
      else none := by
  simp [distribute_fill_widths, foldl_accumulate_step]

/-! ### Claim theorems -/

/-- Claim C1: the width solver returns one resolved width per spec, in
order; a `Fixed(width)` column resolves to exactly `width`, a
`Resizable(initial, offset)` column to `initial + offset`, and a
`Fill(proportion, minimum)` column to
`max(proportion * part_width, minimum)` where `part_width` is the
remaining width divided by the total fill proportion when that total is
positive and `0` otherwise; in particular
`[Fixed(50), Resizable(100, 0), Fill(1, 0)]` at `W = 300` resolves to
`[50, 100, 150]` with no unused width, and re-solving with
`Resizable(100, 20)` yields `[50, 120, 130]`. -/
theorem width_solver_resolves_specs (columns : List Width) (W : ℚ) :
    ((distribute_fill_widths columns W).1.length = columns.length ∧
      (distribute_fill_widths columns W).1 =
        columns.map fun column =>
          match column with
          | Width.Fixed w => CalculatedWidth.mk w false
          | Width.Resizable i o => CalculatedWidth.mk (i + o) true
          | Width.Fill p m =>
              CalculatedWidth.mk
                (max ((p : ℚ) *
                  (if 0 < totalFillProportion columns then
                    (W - sumFixed columns - sumResizable columns) /
                      (totalFillProportion columns : ℚ)
                  else 0)) m) false) ∧
    distribute_fill_widths [Width.Fixed 50, Width.Resizable 100 0, Width.Fill 1 0] 300 =
      ([CalculatedWidth.mk 50 false, CalculatedWidth.mk 100 true,
        CalculatedWidth.mk 150 false], none) ∧
    distribute_fill_widths [Width.Fixed 50, Width.Resizable 100 20, Width.Fill 1 0] 300 =
      ([CalculatedWidth.mk 50 false, CalculatedWidth.mk 120 true,
        CalculatedWidth.mk 130 false], none) := by
  refine ⟨⟨?_, ?_⟩, ?_, ?_⟩
  · simp [distribute_fill_widths]
  · rw [distribute_fill_widths_fst]
    refine List.map_congr_left fun c _ => ?_
    have hpos : (0 < totalFillProportion columns) = (totalFillProportion columns ≠ 0) := by
      simp [Nat.pos_iff_ne_zero]
    cases c <;> simp [calculate_width, hpos]
  · norm_num [distribute_fill_widths, accumulate_step, calculate_width, List.foldl]
  · norm_num [distribute_fill_widths, accumulate_step, calculate_width, List.foldl]

/-- Claim C3: `unused_width` is `some remaining` exactly when
`remaining = W - Σ fixed - Σ resizable` is strictly positive and the
total fill proportion is zero, and `none` in every other case; the
solver is a total function, so the situation is reported as a value,
never as an error. -/
theorem unused_width_characterization (columns : List Width) (W : ℚ) :
    (distribute_fill_widths columns W).2 =
      if 0 < W - sumFixed columns - sumResizable columns ∧
          totalFillProportion columns = 0 then
        some (W - sumFixed columns - sumResizable columns)
      else none :=
  distribute_fill_widths_snd columns W

/-- Claim C2: with only `Fixed` and `Resizable` columns (no `Fill`),
when `W` is at least the sum of the spec widths the resolved widths plus
`max(0, unused_width)` add up to exactly `W`; when `W` is strictly below
that sum, `unused_width` is `none` and every resolved `Fixed`/`Resizable`
width is the value given in its spec, unchanged. -/
theorem no_fill_conservation (columns : List Width) (W : ℚ)
    (h : ∀ c ∈ columns, isFill c = false) :
    (sumFixed columns + sumResizable columns ≤ W →
      resolvedSum (distribute_fill_widths columns W).1 +
        max 0 ((distribute_fill_widths columns W).2.getD 0) = W) ∧
    (W < sumFixed columns + sumResizable columns →
      (distribute_fill_widths columns W).2 = none ∧
      (∀ (idx : ℕ) (w : ℚ), columns[idx]? = some (Width.Fixed w) →
        (distribute_fill_widths columns W).1[idx]? =
          some (CalculatedWidth.mk w false)) ∧
      (∀ (idx : ℕ) (i o : ℚ), columns[idx]? = some (Width.Resizable i o) →
        (distribute_fill_widths columns W).1[idx]? =
          some (CalculatedWidth.mk (i + o) true))) := by
  have hfp := totalFillProportion_eq_zero columns h
  constructor
  · intro hle
    rw [distribute_fill_widths_fst, distribute_fill_widths_snd,
      resolvedSum_map_calculate_width _ _ h, hfp]
    by_cases hpos : 0 < W - sumFixed columns - sumResizable columns
    · rw [if_pos ⟨hpos, rfl⟩]
      simp only [Option.getD_some]
      rw [max_eq_right (le_of_lt hpos)]
      ring
    · rw [if_neg fun hc => hpos hc.1]
      simp only [Option.getD_none, max_self, add_zero]
      have hr : W - sumFixed columns - sumResizable columns = 0 :=
        le_antisymm (not_lt.mp hpos) (by linarith)
      linarith
  · intro hlt
    refine ⟨?_, ?_, ?_⟩
    · rw [distribute_fill_widths_snd]
      rw [if_neg]
      rintro ⟨hpos, -⟩
      linarith
    · intro idx w hidx
      rw [distribute_fill_widths_fst, List.getElem?_map, hidx]
      simp [calculate_width]
    · intro idx i o hidx
      rw [distribute_fill_widths_fst, List.getElem?_map, hidx]
      simp [calculate_width]

/-- Claim C4: while a drag is in progress with stored origin `o`, a
pointer move to `p` publishes exactly one resize delta `p.x - o.x`
(relative to the original press point), leaves the origin unchanged,
and captures the event. -/
theorem drag_delta_origin_relative (width : ℚ) (bounds : Rectangle) (state : State)
    (cursor position origin : Point) (h : state.drag_origin = some origin) :
    (on_event width bounds state cursor (Event.cursorMoved position)).published =
      [RawMessage.drag (position.x - origin.x)] ∧
    (on_event width bounds state cursor (Event.cursorMoved position)).state.drag_origin =
      some origin ∧
    (on_event width bounds state cursor (Event.cursorMoved position)).captured = true := by
  simp [on_event, h]

/-- Witness for C4: after a press at `x = 100`, moves to `x = 130` and
then `x = 120` publish deltas `+30` and then `+20` — both measured from
the original origin, never `+30` then `-10`. -/
theorem drag_delta_origin_relative_witness :
    (on_event 2 (Rectangle.mk 0 0 102 20) (State.mk (some (Point.mk 100 10)) true)
        (Point.mk 130 10) (Event.cursorMoved (Point.mk 130 10))).published =
      [RawMessage.drag 30] ∧
    (on_event 2 (Rectangle.mk 0 0 102 20) (State.mk (some (Point.mk 100 10)) true)
        (Point.mk 120 10) (Event.cursorMoved (Point.mk 120 10))).published =
      [RawMessage.drag 20] := by
  have h1 := drag_delta_origin_relative 2 (Rectangle.mk 0 0 102 20)
    (State.mk (some (Point.mk 100 10)) true) (Point.mk 130 10) (Point.mk 130 10)
    (Point.mk 100 10) rfl
  have h2 := drag_delta_origin_relative 2 (Rectangle.mk 0 0 102 20)
    (State.mk (some (Point.mk 100 10)) true) (Point.mk 120 10) (Point.mk 120 10)
    (Point.mk 100 10) rfl
  refine ⟨?_, ?_⟩
  · rw [h1.1]; norm_num
  · rw [h2.1]; norm_num

/-- Claim C5: a left-button release publishes the release message and is
captured exactly when a drag is in progress; it always leaves the drag
origin cleared; a release with no matching press publishes nothing and
falls through unconsumed to the wrapped content; and after any release a
pointer move with no new press publishes no message. -/
theorem release_clears_drag (width : ℚ) (bounds : Rectangle) (state : State)
    (cursor : Point) :
    ((on_event width bounds state cursor Event.buttonReleasedLeft).captured = true ↔
      state.drag_origin.isSome = true) ∧
    (state.drag_origin.isSome = true →
      (on_event width bounds state cursor Event.buttonReleasedLeft).published =
        [RawMessage.release]) ∧
    (state.drag_origin = none →
      (on_event width bounds state cursor Event.buttonReleasedLeft).published = [] ∧
      (on_event width bounds state cursor Event.buttonReleasedLeft).captured = false) ∧
    (on_event width bounds state cursor Event.buttonReleasedLeft).state.drag_origin =
      none ∧
    (∀ cursor2 position,
      (on_event width bounds
          (on_event width bounds state cursor Event.buttonReleasedLeft).state cursor2
          (Event.cursorMoved position)).published = []) := by
  cases h : state.drag_origin <;> simp [on_event, h]

/-- Witness for C5: releasing during a drag publishes the release
message; releasing with no drag in progress publishes nothing and is not
captured. -/
theorem release_clears_drag_witness :
    (on_event 2 (Rectangle.mk 0 0 102 20) (State.mk (some (Point.mk 100 10)) true)
        (Point.mk 110 10) Event.buttonReleasedLeft).published = [RawMessage.release] ∧
    (on_event 2 (Rectangle.mk 0 0 102 20) (State.mk none false)
        (Point.mk 50 10) Event.buttonReleasedLeft).published = [] ∧
    (on_event 2 (Rectangle.mk 0 0 102 20) (State.mk none false)
        (Point.mk 50 10) Event.buttonReleasedLeft).captured = false := by
  refine ⟨(release_clears_drag 2 (Rectangle.mk 0 0 102 20)
      (State.mk (some (Point.mk 100 10)) true) (Point.mk 110 10)).2.1 rfl, ?_, ?_⟩
  · exact ((release_clears_drag 2 (Rectangle.mk 0 0 102 20) (State.mk none false)
      (Point.mk 50 10)).2.2.1 rfl).1
  · exact ((release_clears_drag 2 (Rectangle.mk 0 0 102 20) (State.mk none false)
      (Point.mk 50 10)).2.2.1 rfl).2

/-- Claim C6: the hovered-divider test succeeds exactly when the cursor
lies in the divider strip (the rightmost `width` units of the content
bounds) expanded horizontally by 5 units on each side; with a strip at
`x = 100`, a cursor 4 units left of the strip's left edge is hovered
and capturable by a press, while 6 units left is not. -/
theorem divider_hit_margin (width : ℚ) (bounds : Rectangle) (cursor : Point) :
    (is_divider_hovered width bounds cursor = true ↔
      (bounds.x + bounds.width - width - 5 ≤ cursor.x ∧
        cursor.x < bounds.x + bounds.width + 5 ∧
        bounds.y ≤ cursor.y ∧ cursor.y < bounds.y + bounds.height)) ∧
    is_divider_hovered 2 (Rectangle.mk 0 0 102 20) (Point.mk 96 10) = true ∧
    (on_event 2 (Rectangle.mk 0 0 102 20) (State.mk none false) (Point.mk 96 10)
        Event.buttonPressedLeft).captured = true ∧
    (on_event 2 (Rectangle.mk 0 0 102 20) (State.mk none false) (Point.mk 96 10)
        Event.buttonPressedLeft).state.drag_origin = some (Point.mk 96 10) ∧
    is_divider_hovered 2 (Rectangle.mk 0 0 102 20) (Point.mk 94 10) = false := by
  refine ⟨?_, ?_, ?_, ?_, ?_⟩
  · simp only [is_divider_hovered, divider_bounds, Rectangle.contains,
      Bool.and_eq_true, decide_eq_true_eq]
    constructor
    · rintro ⟨⟨⟨h1, h2⟩, h3⟩, h4⟩
      exact ⟨by linarith, by linarith, h3, h4⟩
    · rintro ⟨h1, h2, h3, h4⟩
      exact ⟨⟨⟨by linarith, by linarith⟩, h3⟩, h4⟩
  · norm_num [is_divider_hovered, divider_bounds, Rectangle.contains]
  · norm_num [on_event, is_divider_hovered, divider_bounds, Rectangle.contains]
  · norm_num [on_event, is_divider_hovered, divider_bounds, Rectangle.contains]
  · norm_num [is_divider_hovered, divider_bounds, Rectangle.contains]

/-- Modelled from the spec (claim C7): the claimed content-hover region,
the content bounds shrunk by a 5-unit margin on the left edge only —
same right edge, so the width also shrinks by 5 — with the same
vertical extent. -/
def claimed_content_hover_region (bounds : Rectangle) : Rectangle :=
  { bounds with x := bounds.x + 5, width := bounds.width - 5 }

/-- Counterexample to C7 as stated: with content bounds
`{x = 0, y = 0, width = 100, height = 20}` and an idle, un-hovered
state, a cursor at `(102, 10)` — outside the claimed left-shrunk region,
whose right edge is `x = 100` — still makes `draw` show the highlight,
because `is_content_hovered` shifts the left edge right by 5 without
shrinking the width, so its region reaches to `x = 105`. -/
theorem content_hover_region_counterexample :
    draw_shows_highlight (Rectangle.mk 0 0 100 20) (State.mk none false)
      (Point.mk 102 10) = true ∧
    (State.mk none false).is_divider_hovered = false ∧
    (State.mk none false).drag_origin.isSome = false ∧
    Rectangle.contains (claimed_content_hover_region (Rectangle.mk 0 0 100 20))
      (Point.mk 102 10) = false ∧
    is_content_hovered (Rectangle.mk 0 0 100 20) (Point.mk 102 10) = true := by
  norm_num [draw_shows_highlight, is_content_hovered, claimed_content_hover_region,
    Rectangle.contains]

/-- Claim C7, amended: the highlight is drawn exactly when the divider
is hovered, a drag is in progress, or the cursor is in the content-hover
region; that region is the content bounds *translated* right by
`clamp(width - 5, 0, 5)` units (5 units once the bounds are at least 10
wide) — the left edge moves right by that amount, and the right edge
moves right by the same amount rather than staying put — with the same
vertical extent. -/
theorem highlight_condition (bounds : Rectangle) (state : State) (cursor : Point) :
    draw_shows_highlight bounds state cursor = true ↔
      (state.is_divider_hovered = true ∨ state.drag_origin.isSome = true ∨
        (bounds.x + min (max (bounds.width - 5) 0) 5 ≤ cursor.x ∧
          cursor.x < bounds.x + min (max (bounds.width - 5) 0) 5 + bounds.width ∧
          bounds.y ≤ cursor.y ∧ cursor.y < bounds.y + bounds.height)) := by
  simp only [draw_shows_highlight, is_content_hovered, Rectangle.contains,
    Bool.or_eq_true, Bool.and_eq_true, decide_eq_true_eq]
  constructor
  · rintro ((⟨⟨⟨h1, h2⟩, h3⟩, h4⟩ | hh) | hd)
    · exact Or.inr (Or.inr ⟨h1, h2, h3, h4⟩)
    · exact Or.inl hh
    · exact Or.inr (Or.inl hd)
  · rintro (hh | hd | ⟨h1, h2, h3, h4⟩)
    · exact Or.inl (Or.inr hh)
    · exact Or.inr hd
    · exact Or.inl (Or.inl ⟨⟨⟨h1, h2⟩, h3⟩, h4⟩)

/-- Counterexample to C8 as stated: with content bounds of width `12.7`
and divider width `2`, the divider's computed x position is `10.7`; the
drawn quad's x is `10` (the floor), although `11` is strictly nearer to
`10.7`, so the x coordinate is not the nearest whole number. -/
theorem snap_not_nearest_counterexample :
    (drawn_divider_quad 2 (Rectangle.mk 0 0 (127/10) 20)).x = 10 ∧
    |(0 : ℚ) + 127/10 - 2 - 11| < |(0 : ℚ) + 127/10 - 2 - 10| := by
  constructor
  · norm_num [drawn_divider_quad, snap, divider_bounds]
  · rw [show (0 : ℚ) + 127/10 - 2 - 11 = -(3/10) by norm_num,
      show (0 : ℚ) + 127/10 - 2 - 10 = 7/10 by norm_num, abs_neg,
      abs_of_nonneg (by norm_num : (0:ℚ) ≤ 3/10),
      abs_of_nonneg (by norm_num : (0:ℚ) ≤ 7/10)]
    norm_num

/-- Claim C8, amended: the drawn divider quad's x coordinate is the
computed divider x *rounded down* to a whole number (its floor, not the
nearest whole number), its width is the configured divider width, and
its vertical position and extent equal those of the content bounds. -/
theorem snap_floors_x (width : ℚ) (bounds : Rectangle) :
    (∃ n : ℤ, (drawn_divider_quad width bounds).x = (n : ℚ)) ∧
    (drawn_divider_quad width bounds).x ≤ bounds.x + bounds.width - width ∧
    bounds.x + bounds.width - width < (drawn_divider_quad width bounds).x + 1 ∧
    (drawn_divider_quad width bounds).width = width ∧
    (drawn_divider_quad width bounds).y = bounds.y ∧
    (drawn_divider_quad width bounds).height = bounds.height := by
  refine ⟨⟨⌊bounds.x + bounds.width - width⌋, rfl⟩, ?_, ?_, rfl, rfl, rfl⟩
  · exact Int.floor_le _
  · exact Int.lt_floor_add_one _

/-- Claim C9: the synchronization message emitted on a body scroll
carries the absolute offset with its vertical component forced to `0`
and its horizontal component passed through unchanged. -/
theorem sync_offset_horizontal_only {Message : Type} (on_sync : AbsoluteOffset → Message)
    (offset : AbsoluteOffset) :
    on_scroll_message on_sync offset = on_sync (AbsoluteOffset.mk offset.x 0) := rfl

/-- Claim C10: a left press with the cursor inside the expanded divider
hit rectangle stores the cursor as the drag origin, publishes nothing,
and captures the event whatever the prior state was — a press during an
active drag silently re-bases the drag on the new origin. -/
theorem press_rebases_drag (width : ℚ) (bounds : Rectangle) (state : State)
    (cursor : Point) (h : is_divider_hovered width bounds cursor = true) :
    (on_event width bounds state cursor Event.buttonPressedLeft).state.drag_origin =
      some cursor ∧
    (on_event width bounds state cursor Event.buttonPressedLeft).captured = true ∧
    (on_event width bounds state cursor Event.buttonPressedLeft).published = [] := by
  simp [on_event, h]

/-- Witness for C10: a press at `(96, 10)` inside the hit rectangle,
arriving while a drag with origin `(50, 5)` is already active, re-bases
the drag origin to `(96, 10)` and captures. -/
theorem press_rebases_drag_witness :
    (on_event 2 (Rectangle.mk 0 0 102 20) (State.mk (some (Point.mk 50 5)) true)
        (Point.mk 96 10) Event.buttonPressedLeft).state.drag_origin =
      some (Point.mk 96 10) ∧
    (on_event 2 (Rectangle.mk 0 0 102 20) (State.mk (some (Point.mk 50 5)) true)
        (Point.mk 96 10) Event.buttonPressedLeft).captured = true ∧
    (on_event 2 (Rectangle.mk 0 0 102 20) (State.mk (some (Point.mk 50 5)) true)
        (Point.mk 96 10) Event.buttonPressedLeft).published = [] :=
  press_rebases_drag 2 (Rectangle.mk 0 0 102 20) (State.mk (some (Point.mk 50 5)) true)
    (Point.mk 96 10)
    (by norm_num [is_divider_hovered, divider_bounds, Rectangle.contains])

/-- Witness for C2: with the single spec `Fixed(100)` and `W = 150` the
resolved width plus the unused width is `150`; with `W = 50` (below the
spec sum) the unused width is `none` and the resolved width is an
unchanged `100`. -/
theorem no_fill_conservation_witness :
    (resolvedSum (distribute_fill_widths [Width.Fixed 100] 150).1 +
      max 0 ((distribute_fill_widths [Width.Fixed 100] 150).2.getD 0) = 150) ∧
    (distribute_fill_widths [Width.Fixed 100] 50).2 = none ∧
    (distribute_fill_widths [Width.Fixed 100] 50).1[0]? =
      some (CalculatedWidth.mk 100 false) := by
  have hno : ∀ c ∈ [Width.Fixed (100 : ℚ)], isFill c = false := by
    intro c hc
    simp only [List.mem_singleton] at hc
    rw [hc]; rfl
  have hsum : sumFixed [Width.Fixed (100 : ℚ)] +
      sumResizable [Width.Fixed (100 : ℚ)] = 100 := by
    norm_num [sumFixed, sumResizable]
  refine ⟨(no_fill_conservation [Width.Fixed 100] 150 hno).1 (by rw [hsum]; norm_num),
    ((no_fill_conservation [Width.Fixed 100] 50 hno).2 (by rw [hsum]; norm_num)).1,
    ((no_fill_conservation [Width.Fixed 100] 50 hno).2 (by rw [hsum]; norm_num)).2.1 0 100
      rfl⟩

end IcedTable
